import Mathlib

/-!
Verification of the diff-to-review-comment pipeline of `src/main.ts`
(an AI pull-request reviewer GitHub action).

Strings are modelled as `List Char`.  JavaScript / JSON values that flow
through the untyped parts of the pipeline (the value returned by
`JSON.parse`, the elements of the model's `reviews` array) are modelled by
the inductive type `JVal`; the JavaScript value `undefined` (the result of
reading an absent property) is `JVal.undef`.  JSON numbers are kept as
their source lexeme, since no code path under analysis uses their numeric
value other than through the `Number()` coercion, which is modelled
separately.  Fallible operations return `Option` or `Except Unit`, where
the error case models a thrown-and-possibly-caught JavaScript exception.
-/

def jstr (s : String) : List Char := s.toList

/-- A JavaScript value as it can appear while interpreting a model
response: the JSON data constructors plus `undefined`.  A number keeps its
source lexeme. -/
inductive JVal where
  | null
  | undef
  | bool (b : Bool)
  | num (lexeme : List Char)
  | str (s : List Char)
  | arr (elems : List JVal)
  | obj (fields : List (List Char × JVal))

/-- JSON insignificant whitespace (RFC 8259): space, tab, line feed,
carriage return. -/
def isJsonWs (c : Char) : Bool :=
  c == ' ' || c == '\t' || c == '\n' || c == '\r'

def skipWs (cs : List Char) : List Char := cs.dropWhile isJsonWs

/-- Whitespace stripped by JavaScript `String.prototype.trim`, modelled on
the common ASCII whitespace characters. -/
def isJsWs (c : Char) : Bool :=
  c == ' ' || c == '\t' || c == '\n' || c == '\r'

def jsTrim (s : List Char) : List Char :=
  ((s.dropWhile isJsWs).reverse.dropWhile isJsWs).reverse

def hexDigit (c : Char) : Option Nat :=
  if '0' ≤ c ∧ c ≤ '9' then some (c.toNat - '0'.toNat)
  else if 'a' ≤ c ∧ c ≤ 'f' then some (c.toNat - 'a'.toNat + 10)
  else if 'A' ≤ c ∧ c ≤ 'F' then some (c.toNat - 'A'.toNat + 10)
  else none

def consStrRes (c : Char) :
    Option (List Char × List Char) → Option (List Char × List Char)
  | none => none
  | some (s, r) => some (c :: s, r)

/-- Body of a JSON string after the opening quote: characters up to the
closing quote, with the JSON escape sequences.  Raw control characters are
a parse error, as in `JSON.parse`.  Fueled to keep the recursion
structural (the fuel is instantiated to more than the input length). -/
def parseStringBody : Nat → List Char → Option (List Char × List Char)
  | 0, _ => none
  | Nat.succ n, cs =>
    match cs with
    | [] => none
    | '"' :: rest => some ([], rest)
    | '\\' :: rest =>
      match rest with
      | '"' :: r => consStrRes '"' (parseStringBody n r)
      | '\\' :: r => consStrRes '\\' (parseStringBody n r)
      | '/' :: r => consStrRes '/' (parseStringBody n r)
      | 'b' :: r => consStrRes (Char.ofNat 8) (parseStringBody n r)
      | 'f' :: r => consStrRes (Char.ofNat 12) (parseStringBody n r)
      | 'n' :: r => consStrRes '\n' (parseStringBody n r)
      | 'r' :: r => consStrRes '\r' (parseStringBody n r)
      | 't' :: r => consStrRes '\t' (parseStringBody n r)
      | 'u' :: a :: b :: c :: d :: r =>
        match hexDigit a, hexDigit b, hexDigit c, hexDigit d with
        | some ha, some hb, some hc, some hd =>
          consStrRes (Char.ofNat (((ha * 16 + hb) * 16 + hc) * 16 + hd))
            (parseStringBody n r)
        | _, _, _, _ => none
      | _ => none
    | c :: rest =>
      if c.toNat < 32 then none else consStrRes c (parseStringBody n rest)

def parseExpDigits (acc : List Char) (cs : List Char) :
    Option (List Char × List Char) :=
  let (sgn, r) : List Char × List Char :=
    match cs with
    | '+' :: r2 => (['+'], r2)
    | '-' :: r2 => (['-'], r2)
    | _ => ([], cs)
  let ds := r.takeWhile Char.isDigit
  if ds.isEmpty then none else some (acc ++ sgn ++ ds, r.dropWhile Char.isDigit)

def parseExpPart (acc : List Char) (cs : List Char) :
    Option (List Char × List Char) :=
  match cs with
  | 'e' :: r => parseExpDigits (acc ++ ['e']) r
  | 'E' :: r => parseExpDigits (acc ++ ['E']) r
  | _ => some (acc, cs)

def parseFracPart (acc : List Char) (cs : List Char) :
    Option (List Char × List Char) :=
  match cs with
  | '.' :: r =>
    let ds := r.takeWhile Char.isDigit
    if ds.isEmpty then none
    else some (acc ++ '.' :: ds, r.dropWhile Char.isDigit)
  | _ => some (acc, cs)

def numTail (acc : List Char) (cs : List Char) :
    Option (List Char × List Char) :=
  match parseFracPart acc cs with
  | none => none
  | some (a2, r2) => parseExpPart a2 r2

/-- A JSON number: optional minus, integer part without leading zeros,
optional fraction, optional exponent; the lexeme is returned verbatim. -/
def parseNumber (cs : List Char) : Option (List Char × List Char) :=
  let (sign, cs1) : List Char × List Char :=
    match cs with
    | '-' :: r => (['-'], r)
    | _ => ([], cs)
  match cs1 with
  | '0' :: r => numTail (sign ++ ['0']) r
  | c :: r =>
    if c.isDigit then
      numTail (sign ++ c :: r.takeWhile Char.isDigit) (r.dropWhile Char.isDigit)
    else none
  | [] => none

/-- Dispatch tag for the single fueled JSON parsing function: a value, the
items of an array after `[`, or the members of an object after `\x7b`. -/
inductive PTag where
  | value
  | arrayItems
  | objectItems

/-- Recursive-descent JSON parsing, fueled so that the recursion is
structural on the fuel and reduces definitionally.  `arrayItems` and
`objectItems` return their collection wrapped in `JVal.arr` / `JVal.obj`. -/
def parseF : Nat → PTag → List Char → Option (JVal × List Char)
  | 0, _, _ => none
  | Nat.succ n, PTag.value, cs =>
    match skipWs cs with
    | 'n' :: 'u' :: 'l' :: 'l' :: rest => some (JVal.null, rest)
    | 't' :: 'r' :: 'u' :: 'e' :: rest => some (JVal.bool true, rest)
    | 'f' :: 'a' :: 'l' :: 's' :: 'e' :: rest => some (JVal.bool false, rest)
    | '"' :: rest =>
      match parseStringBody (rest.length + 1) rest with
      | none => none
      | some (s, r) => some (JVal.str s, r)
    | '[' :: rest =>
      match skipWs rest with
      | ']' :: r => some (JVal.arr [], r)
      | _ => parseF n PTag.arrayItems rest
    | '{' :: rest =>
      match skipWs rest with
      | '}' :: r => some (JVal.obj [], r)
      | _ => parseF n PTag.objectItems rest
    | other =>
      match parseNumber other with
      | none => none
      | some (lex, r) => some (JVal.num lex, r)
  | Nat.succ n, PTag.arrayItems, cs =>
    match parseF n PTag.value cs with
    | none => none
    | some (v, rest) =>
      match skipWs rest with
      | ',' :: r =>
        match parseF n PTag.arrayItems r with
        | some (JVal.arr vs, r2) => some (JVal.arr (v :: vs), r2)
        | _ => none
      | ']' :: r => some (JVal.arr [v], r)
      | _ => none
  | Nat.succ n, PTag.objectItems, cs =>
    match skipWs cs with
    | '"' :: rest =>
      match parseStringBody (rest.length + 1) rest with
      | none => none
      | some (key, r1) =>
        match skipWs r1 with
        | ':' :: r2 =>
          match parseF n PTag.value r2 with
          | none => none
          | some (v, r3) =>
            match skipWs r3 with
            | ',' :: r4 =>
              match parseF n PTag.objectItems r4 with
              | some (JVal.obj fs, r5) => some (JVal.obj ((key, v) :: fs), r5)
              | _ => none
            | '}' :: r4 => some (JVal.obj [(key, v)], r4)
            | _ => none
        | _ => none
    | _ => none

/-- Model of `JSON.parse`: parse one value and require only whitespace
after it, otherwise the parse throws (here: `none`). -/
def jsonParse (s : List Char) : Option JVal :=
  match parseF (2 * s.length + 2) PTag.value s with
  | none => none
  | some (v, rest) => if (skipWs rest).isEmpty then some v else none

/-- JavaScript property access `v[key]` as performed on the result of
`JSON.parse`: on an object, the value of the property (a later duplicate
key overrides an earlier one, as in an object built by `JSON.parse`);
absent property, or access on a non-object non-null value, gives
`undefined`.  Access on `null` or `undefined` throws and is modelled at
the call sites. -/
def jGet (v : JVal) (key : List Char) : JVal :=
  match v with
  | JVal.obj fields =>
    (fields.foldl (fun acc kv => if kv.1 = key then some kv.2 else acc) none).getD
      JVal.undef
  | _ => JVal.undef

/-- Whether a parsed JSON number lexeme denotes zero: its mantissa
consists of sign, zeros and a decimal point only. -/
def numIsZero (lex : List Char) : Bool :=
  let noSign := match lex with | '-' :: r => r | _ => lex
  let mantissa := noSign.takeWhile (fun c => !(c == 'e' || c == 'E'))
  mantissa.all (fun c => c == '0' || c == '.')

/-- JavaScript truthiness of a `JVal`: `undefined`, `null`, `false`, zero
and the empty string are falsy; every other value, including the empty
array and the empty object, is truthy. -/
def jTruthy : JVal → Bool
  | JVal.undef => false
  | JVal.null => false
  | JVal.bool b => b
  | JVal.num lex => !(numIsZero lex)
  | JVal.str s => !s.isEmpty
  | JVal.arr _ => true
  | JVal.obj _ => true

def jIsNull : JVal → Bool
  | JVal.null => true
  | _ => false

/-- Whether a `JVal` is an array, i.e. could be a well-formed (possibly
empty) list of review entries at the interpreter's boundary. -/
def isReviewList : JVal → Bool
  | JVal.arr _ => true
  | _ => false

/-- The JavaScript regular expression match `res.match` of the pattern
"one left brace, then anything including newlines, then one right brace",
which greedily spans from the first left brace of the string to the last
right brace of the string when that pair exists in order, and fails to
match otherwise. -/
def extractCandidate (s : List Char) : Option (List Char) :=
  let afterFirst := s.dropWhile (fun c => !(c == '{'))
  let t := (afterFirst.reverse.dropWhile (fun c => !(c == '}'))).reverse
  if t.isEmpty then none else some t

/-- The string handed to `JSON.parse` in `getAIResponse`: the regex
extraction when it matches, the raw response otherwise. -/
def interpCandidate (res : List Char) : List Char :=
  match extractCandidate res with
  | some m => m
  | none => res

/-- The defaulted response text of `getAIResponse`:
`response.choices[0].message?.content?.trim() || "\x7b\x7d"` — absent
content, or content that trims to the empty string, becomes the two-brace
empty-object string. -/
def resOf : Option (List Char) → List Char
  | none => jstr "\x7b\x7d"
  | some s => let t := jsTrim s; if t.isEmpty then jstr "\x7b\x7d" else t

/-- The pure core of `getAIResponse` from the defaulted response text
`res` to the value returned by the interpreter: extract the brace-to-brace
candidate, `JSON.parse` it, read `parsed.reviews`, defaulting a falsy
`reviews` value to the empty array.  A parse failure, or `parsed` being
`null` (on which the property access throws inside the surrounding
`try`), is caught and becomes the failure signal `none` (the source's
`null`). -/
def getAIResponseCore (res : List Char) : Option JVal :=
  match jsonParse (interpCandidate res) with
  | none => none
  | some parsed =>
    if jIsNull parsed then none
    else if jTruthy (jGet parsed (jstr "reviews")) then
      some (jGet parsed (jstr "reviews"))
    else some (JVal.arr [])

/-- `getAIResponse` from the model response content (absent content is
`none`) to the interpreter's result. -/
def contentToResult (content : Option (List Char)) : Option JVal :=
  getAIResponseCore (resOf content)

def digitsToNat (ds : List Char) : Nat :=
  ds.foldl (fun acc c => acc * 10 + (c.toNat - '0'.toNat)) 0

/-- JavaScript `Number()` coercion of a string, with `none` modelling
`NaN`: whitespace is trimmed, the empty string is `0`, an optionally
signed decimal digit sequence is its integer value, and everything else
is modelled as `NaN`.  (Fractional, hexadecimal and `Infinity` forms,
which no code path under analysis produces, are subsumed into the `NaN`
case of this model.) -/
def jsStringToNumber (s : List Char) : Option Int :=
  let t := jsTrim s
  match t with
  | [] => some 0
  | _ =>
    let (sign, ds) : Int × List Char :=
      match t with
      | '-' :: r => (-1, r)
      | '+' :: r => (1, r)
      | _ => (1, t)
    if !ds.isEmpty && ds.all Char.isDigit then
      some (sign * Int.ofNat (digitsToNat ds))
    else none

/-- JavaScript `Number()` coercion of a `JVal`, with `none` modelling
`NaN`.  Arrays and objects coerce through their string conversion, which
no code path under analysis exercises; they are subsumed into the `NaN`
case of this model. -/
def jsToNumber : JVal → Option Int
  | JVal.undef => none
  | JVal.null => some 0
  | JVal.bool b => some (if b then 1 else 0)
  | JVal.num lex => jsStringToNumber lex
  | JVal.str s => jsStringToNumber s
  | JVal.arr _ => none
  | JVal.obj _ => none


/-- One line record of a parsed diff chunk, as produced by the
`parse-diff` library and consumed untyped by `createPrompt`: `ln` is set
on added and removed lines, `ln2` on context lines. -/
structure Change where
  ln : Option Int
  ln2 : Option Int
  content : List Char

/-- One hunk of a parsed diff (`parse-diff`'s `Chunk`): the verbatim hunk
header line and the ordered line changes. -/
structure Chunk where
  content : List Char
  changes : List Change

/-- One file of a parsed diff (`parse-diff`'s `File`), restricted to the
fields the pipeline reads: the destination path (`undefined` is `none`;
a deleted file carries the literal path "/dev/null") and the hunks. -/
structure FileChange where
  «to» : Option (List Char)
  chunks : List Chunk

structure PRDetails where
  owner : List Char
  repo : List Char
  pull_number : Int
  title : List Char
  description : List Char

/-- The validated comment record accumulated by the pipeline and sent to
the submission call.  `line` is the result of the JavaScript `Number()`
coercion, with `none` modelling `NaN`. -/
structure ReviewComment where
  body : JVal
  path : List Char
  line : Option Int

/-- String interpolation of an optional string, as in a JavaScript
template literal: an absent value renders as the text "undefined". -/
def jsDisplayStr : Option (List Char) → List Char
  | some s => s
  | none => jstr "undefined"

def intToChars (n : Int) : List Char := (toString n).toList

/-- The interpolation of one change's line number in `createPrompt`:
the JavaScript expression chooses `c.ln` when it is truthy (present and
nonzero) and `c.ln2` otherwise; an absent result renders as
"undefined". -/
def lnDisplay (c : Change) : List Char :=
  let chosen : Option Int :=
    match c.ln with
    | some n => if n = 0 then c.ln2 else some n
    | none => c.ln2
  match chosen with
  | some n => intToChars n
  | none => jstr "undefined"

/-- The prompt template of `createPrompt`, verbatim from the source: task
statement and output format, the pull-request title and description (an
empty description falls back to an explicit marker), the file path, the
raw hunk text, and the per-line restatement of the changes. -/
def createPrompt (file : FileChange) (chunk : Chunk) (prDetails : PRDetails) :
    List Char :=
  jstr "You are a code reviewer. Review the following code changes and provide feedback.\n\nIMPORTANT: You must respond with ONLY a valid JSON object in this exact format:\n\x7b\"reviews\": [\x7b\"lineNumber\": <line_number>, \"reviewComment\": \"<review comment>\"\x7d]\x7d\n\nRules:\n- If there are issues to address, include them in the \"reviews\" array\n- If the code looks good, return: \x7b\"reviews\": []\x7d\n- Do not give positive comments or compliments\n- Do not suggest adding comments to the code\n- Write review comments in GitHub Markdown format\n- Each review must have a \"lineNumber\" (number) and \"reviewComment\" (string)\n\nPull Request Context:\nTitle: "
  ++ prDetails.title
  ++ jstr "\nDescription: "
  ++ (if prDetails.description.isEmpty then jstr "No description provided"
      else prDetails.description)
  ++ jstr "\n\nFile: "
  ++ jsDisplayStr file.«to»
  ++ jstr "\n\nCode Changes:\n```diff\n"
  ++ chunk.content
  ++ jstr "\n"
  ++ List.intercalate (jstr "\n")
      (chunk.changes.map (fun c => lnDisplay c ++ jstr " " ++ c.content))
  ++ jstr "\n```\n\nRespond with ONLY the JSON object, no other text:"

/-- One iteration of the `flatMap` callback in `createComment`: a falsy
`file.«to»` (absent or empty) yields nothing; otherwise the entry's
`reviewComment` and `lineNumber` properties are read — which throws (the
`Except.error`) when the entry is `null` or `undefined` — and the line is
the unvalidated `Number()` coercion of `lineNumber`. -/
def commentFor (file : FileChange) (r : JVal) : Except Unit (List ReviewComment) :=
  match file.«to» with
  | none => Except.ok []
  | some p =>
    if p.isEmpty then Except.ok []
    else
      match r with
      | JVal.null => Except.error ()
      | JVal.undef => Except.error ()
      | _ =>
        Except.ok [{ body := jGet r (jstr "reviewComment"), path := p,
                     line := jsToNumber (jGet r (jstr "lineNumber")) }]

/-- The sequential `flatMap` of `createComment`: callback results are
concatenated in order and a thrown exception propagates from the first
offending entry. -/
def createCommentList (file : FileChange) :
    List JVal → Except Unit (List ReviewComment)
  | [] => Except.ok []
  | r :: rest =>
    match commentFor file r with
    | Except.error e => Except.error e
    | Except.ok cs =>
      match createCommentList file rest with
      | Except.error e => Except.error e
      | Except.ok rest2 => Except.ok (cs ++ rest2)

/-- `createComment`: maps the interpreter's entries to review comment
records for one file; the chunk argument is accepted and unused, as in the
source. -/
def createComment (file : FileChange) (_chunk : Chunk)
    (aiResponses : List JVal) : Except Unit (List ReviewComment) :=
  createCommentList file aiResponses

/-- Outcome of one model-inference call: the call threw, or returned a
message whose content may be absent. -/
inductive ModelOutcome where
  | error
  | ok (content : Option (List Char))

/-- `getAIResponse` for a given model behavior (a function from prompt to
call outcome): a thrown call is caught and becomes the failure signal
`none`; otherwise the content is interpreted by the pure pipeline. -/
def getAIResponse (oracle : List Char → ModelOutcome) (prompt : List Char) :
    Option JVal :=
  match oracle prompt with
  | ModelOutcome.error => none
  | ModelOutcome.ok content => contentToResult content

/-- The inner loop of `analyzeCode` over one file's chunks.  The
accumulator carries the comments gathered so far and, as instrumentation,
the list of prompts sent to the model.  A falsy (`null`) interpreter
result skips the chunk; a truthy non-array result makes the `flatMap`
inside `createComment` throw, which aborts the run (`Except.error`). -/
def analyzeChunks (oracle : List Char → ModelOutcome) (prDetails : PRDetails)
    (file : FileChange) :
    List Chunk → List ReviewComment × List (List Char) →
    Except Unit (List ReviewComment × List (List Char))
  | [], acc => Except.ok acc
  | chunk :: rest, acc =>
    let prompt := createPrompt file chunk prDetails
    let prompts := acc.2 ++ [prompt]
    match getAIResponse oracle prompt with
    | none => analyzeChunks oracle prDetails file rest (acc.1, prompts)
    | some v =>
      if jTruthy v then
        match v with
        | JVal.arr l =>
          match createComment file chunk l with
          | Except.error e => Except.error e
          | Except.ok newComments =>
            analyzeChunks oracle prDetails file rest (acc.1 ++ newComments, prompts)
        | _ => Except.error ()
      else analyzeChunks oracle prDetails file rest (acc.1, prompts)

/-- The outer loop of `analyzeCode` over the files: a file whose
destination path is the deleted-file sentinel "/dev/null" is skipped
before any of its chunks are visited. -/
def analyzeFiles (oracle : List Char → ModelOutcome) (prDetails : PRDetails) :
    List FileChange → List ReviewComment × List (List Char) →
    Except Unit (List ReviewComment × List (List Char))
  | [], acc => Except.ok acc
  | file :: rest, acc =>
    if file.«to» = some (jstr "/dev/null") then
      analyzeFiles oracle prDetails rest acc
    else
      match analyzeChunks oracle prDetails file file.chunks acc with
      | Except.error e => Except.error e
      | Except.ok acc2 => analyzeFiles oracle prDetails rest acc2

/-- `analyzeCode`: drives prompt building, the model call, interpretation
and comment mapping across every file and hunk, accumulating comments (and,
as instrumentation, the prompts sent) in encounter order. -/
def analyzeCode (oracle : List Char → ModelOutcome)
    (parsedDiff : List FileChange) (prDetails : PRDetails) :
    Except Unit (List ReviewComment × List (List Char)) :=
  analyzeFiles oracle prDetails parsedDiff ([], [])

/-- Observable outcome of one run of `main`: the payloads of the
submission calls made, and whether the process exits signalling failure
(the `main().catch` handler calling `process.exit(1)`). -/
structure MainOutcome where
  submissions : List (List ReviewComment)
  exitFailure : Bool

/-- `main` after the pull-request metadata has been read, parametrized by
its external collaborators: the event action, the result of `getDiff`
(`none` models a failed retrieval, already caught and logged inside
`getDiff`), the `parse-diff` library, the glob exclusion test applied to
`file.«to» ?? ""`, and the model behavior.  An unsupported action, an
absent diff and an empty diff all return normally; the submission call is
made only for a nonempty accumulated comment list; an exception escaping
`analyzeCode` is caught by `main().catch`, which exits with failure. -/
def mainModel (action : List Char) (diffResult : Option (List Char))
    (parseDiffFn : List Char → List FileChange)
    (matchesAnyPattern : List Char → Bool)
    (oracle : List Char → ModelOutcome) (prDetails : PRDetails) : MainOutcome :=
  if action = jstr "opened" ∨ action = jstr "synchronize" then
    match diffResult with
    | none => { submissions := [], exitFailure := false }
    | some diff =>
      if diff.isEmpty then { submissions := [], exitFailure := false }
      else
        match analyzeCode oracle
            ((parseDiffFn diff).filter
              (fun file => !matchesAnyPattern (file.«to».getD []))) prDetails with
        | Except.error _ => { submissions := [], exitFailure := true }
        | Except.ok (comments, _) =>
          if 0 < comments.length then
            { submissions := [comments], exitFailure := false }
          else { submissions := [], exitFailure := false }
  else { submissions := [], exitFailure := false }

/-! ## Sanity checks of the embedding on concrete inputs -/

example : jsonParse (jstr "\x7b\"reviews\":[]\x7d")
    = some (JVal.obj [(jstr "reviews", JVal.arr [])]) := rfl
example : jsonParse (jstr " [1, -2.5e3, \"a\\n\", true, null] ")
    = some (JVal.arr [JVal.num (jstr "1"), JVal.num (jstr "-2.5e3"),
        JVal.str (jstr "a\n"), JVal.bool true, JVal.null]) := rfl
example : jsonParse (jstr "not json at all") = none := rfl
example : contentToResult (some (jstr "not json at all")) = none := rfl
example : contentToResult (some (jstr "null")) = none := rfl
example : jsStringToNumber (jstr "42") = some 42 := rfl
example : jsStringToNumber (jstr "abc") = none := rfl
example : jsStringToNumber (jstr "") = some 0 := rfl

/-! ## Helper lemmas -/

theorem dropWhile_append_of_all {p : Char → Bool} :
    ∀ (l1 l2 : List Char), (∀ a ∈ l1, p a = true) →
      List.dropWhile p (l1 ++ l2) = List.dropWhile p l2
  | [], _, _ => rfl
  | x :: xs, l2, h => by
    have hx : p x = true := h x (List.mem_cons_self x xs)
    rw [List.cons_append, List.dropWhile_cons_of_pos hx]
    exact dropWhile_append_of_all xs l2 fun a ha => h a (List.mem_cons_of_mem x ha)

/-! ## Claims -/

/-- Claim C1, counterexample: a raw model comment whose `lineNumber` is the
non-numeric string "abc" is NOT excluded by `createComment` — it produces a
review comment whose `line` is the `NaN` marker, so the emitted list is
nonempty rather than empty. -/
theorem c1_counterexample :
    createComment { «to» := some (jstr "a.ts"), chunks := [] }
        { content := [], changes := [] }
        [JVal.obj [(jstr "lineNumber", JVal.str (jstr "abc")),
          (jstr "reviewComment", JVal.str (jstr "y"))]]
      = Except.ok [{ body := JVal.str (jstr "y"), path := jstr "a.ts",
                     line := none }] ∧
    ([{ body := JVal.str (jstr "y"), path := jstr "a.ts", line := none }] :
        List ReviewComment) ≠ [] :=
  ⟨rfl, List.cons_ne_nil _ _⟩

/-- Claim C1, amended: `createComment` performs no validation of
`lineNumber` at all.  Whenever the file has a present, nonempty destination
path, every object entry of the interpreted list yields exactly one review
comment whose `line` is the unchecked `Number()` coercion of the entry's
`lineNumber` property — `NaN` (modelled `none`) for a non-numeric or absent
value, never an exclusion; entries are dropped only when the destination
path is absent or empty. -/
theorem c1_amended_no_line_validation :
    ∀ (file : FileChange) (chunk : Chunk) (p : List Char)
      (fields : List (List Char × JVal)),
      file.«to» = some p → p ≠ [] →
      createComment file chunk [JVal.obj fields]
        = Except.ok [{ body := jGet (JVal.obj fields) (jstr "reviewComment"),
                       path := p,
                       line := jsToNumber
                         (jGet (JVal.obj fields) (jstr "lineNumber")) }] := by
  intro file chunk p fields hto hp
  have hpe : p.isEmpty = false := by
    cases p with
    | nil => exact absurd rfl hp
    | cons a as => rfl
  simp [createComment, createCommentList, commentFor, hto, hpe]

/-- Claim C1, witness for the amended theorem: a comment with `lineNumber`
"abc" on file "a.ts" is emitted (not excluded) with `line = NaN` and an
`undefined` body. -/
theorem c1_amended_witness :
    createComment { «to» := some (jstr "a.ts"), chunks := [] }
        { content := [], changes := [] }
        [JVal.obj [(jstr "lineNumber", JVal.str (jstr "abc"))]]
      = Except.ok [{ body := JVal.undef, path := jstr "a.ts", line := none }] :=
  c1_amended_no_line_validation _ _ _ _ rfl (by decide)

/-- Claim C2, counterexample: with the diff retrieval failing (`getDiff`
returned `null`, modelled `none`) on a supported "opened" event, the run
makes no submission AND completes as a normal success — `exitFailure` is
`false`, contradicting "the process signals failure to its caller". -/
theorem c2_counterexample :
    (mainModel (jstr "opened") none (fun _ => []) (fun _ => false)
        (fun _ => ModelOutcome.error)
        { owner := [], repo := [], pull_number := 1, title := [],
          description := [] }).exitFailure = false ∧
    (mainModel (jstr "opened") none (fun _ => []) (fun _ => false)
        (fun _ => ModelOutcome.error)
        { owner := [], repo := [], pull_number := 1, title := [],
          description := [] }).submissions = [] :=
  ⟨rfl, rfl⟩

/-- Claim C2, amended: when diff retrieval fails (`getDiff` returns `null`)
or returns nothing (the empty string), no comments are submitted and the
message "No diff found" is logged, but the run completes as a NORMAL
SUCCESS (the early `return` inside `main`, process exit code 0) rather
than signalling failure to its caller; this holds for every event action
and every configuration of the collaborators. -/
theorem c2_amended_no_diff_is_silent_success :
    (∀ (action : List Char) (parseDiffFn : List Char → List FileChange)
        (matchesAnyPattern : List Char → Bool)
        (oracle : List Char → ModelOutcome) (prDetails : PRDetails),
        mainModel action none parseDiffFn matchesAnyPattern oracle prDetails
          = { submissions := [], exitFailure := false }) ∧
    (∀ (action : List Char) (parseDiffFn : List Char → List FileChange)
        (matchesAnyPattern : List Char → Bool)
        (oracle : List Char → ModelOutcome) (prDetails : PRDetails),
        mainModel action (some []) parseDiffFn matchesAnyPattern oracle prDetails
          = { submissions := [], exitFailure := false }) := by
  constructor <;>
    intro action parseDiffFn matchesAnyPattern oracle prDetails <;>
    unfold mainModel <;> split <;> rfl

/-- Claim C3, counterexample: on the valid-JSON input whose `reviews`
field is the (truthy, non-array) string "hi", the interpreter returns
neither a well-formed list nor the failure signal `null`: it returns that
string unchecked. -/
theorem c3_counterexample :
    contentToResult (some (jstr "\x7b\"reviews\":\"hi\"\x7d"))
      = some (JVal.str (jstr "hi")) ∧
    isReviewList (JVal.str (jstr "hi")) = false :=
  ⟨rfl, rfl⟩

/-- Claim C3, amended: the interpreter is total and never raises past its
own boundary — for every input it returns the failure signal `none`, or
the empty list, or the parsed object's `reviews` value when that value is
truthy.  The result is a well-formed (possibly empty) list whenever the
`reviews` field is absent, falsy or an array; but a truthy non-array
`reviews` value is passed through unchecked rather than rejected. -/
theorem c3_amended_totality :
    ∀ content : Option (List Char),
      contentToResult content = none ∨
      contentToResult content = some (JVal.arr []) ∨
      ∃ parsed, jsonParse (interpCandidate (resOf content)) = some parsed ∧
        jTruthy (jGet parsed (jstr "reviews")) = true ∧
        contentToResult content = some (jGet parsed (jstr "reviews")) := by
  intro content
  rcases h : jsonParse (interpCandidate (resOf content)) with _ | parsed
  · left
    simp [contentToResult, getAIResponseCore, h]
  · by_cases hn : jIsNull parsed
    · left
      simp [contentToResult, getAIResponseCore, h, hn]
    · by_cases ht : jTruthy (jGet parsed (jstr "reviews"))
      · right; right
        exact ⟨parsed, rfl, ht, by simp [contentToResult, getAIResponseCore, h, hn, ht]⟩
      · right; left
        simp [contentToResult, getAIResponseCore, h, hn, ht]

/-- Claim C4: the interpreter's extraction step takes the substring from
the first left brace through the last right brace — for any object text
wrapped in prose with no left brace before it and no right brace after it,
exactly the object text is extracted; and on the concrete prose-wrapped
input "Here you go: ... Thanks" the interpreter returns the empty list,
not a failure signal. -/
theorem c4_prose_wrapped_extraction :
    (∀ (pre mid post : List Char), '{' ∉ pre → '}' ∉ post →
        extractCandidate (pre ++ ('{' :: mid ++ ['}']) ++ post)
          = some ('{' :: mid ++ ['}'])) ∧
    contentToResult (some (jstr "Here you go:\n\x7b\"reviews\":[]\x7d\nThanks"))
      = some (JVal.arr []) := by
  constructor
  · intro pre mid post hpre hpost
    have hpre2 : ∀ a ∈ pre, (!(a == '{')) = true := by
      intro a ha
      have : a ≠ '{' := fun h => hpre (h ▸ ha)
      simp [this]
    have hpost2 : ∀ a ∈ post.reverse, (!(a == '}')) = true := by
      intro a ha
      have ha2 : a ∈ post := List.mem_reverse.mp ha
      have : a ≠ '}' := fun h => hpost (h ▸ ha2)
      simp [this]
    have h1 : List.dropWhile (fun c => !(c == '{'))
        (pre ++ ('{' :: mid ++ ['}']) ++ post)
        = ('{' :: mid ++ ['}']) ++ post := by
      rw [List.append_assoc, dropWhile_append_of_all pre _ hpre2, List.cons_append]
      simp [List.dropWhile_cons]
    have h2 : List.dropWhile (fun c => !(c == '}'))
        ((('{' :: mid ++ ['}']) ++ post).reverse)
        = ('{' :: mid ++ ['}']).reverse := by
      rw [List.reverse_append, dropWhile_append_of_all post.reverse _ hpost2]
      have hr : ('{' :: mid ++ ['}']).reverse = '}' :: (mid.reverse ++ ['{']) := by
        simp
      rw [hr]
      simp [List.dropWhile_cons]
    unfold extractCandidate
    simp only [h1, h2, List.reverse_reverse]
    rfl
  · rfl

/-- Claim C4, witness for the general extraction statement, at the claim's
concrete prose-wrapped input. -/
theorem c4_witness :
    extractCandidate (jstr "Here you go:\n"
        ++ ('{' :: jstr "\"reviews\":[]" ++ ['}']) ++ jstr "\nThanks")
      = some ('{' :: jstr "\"reviews\":[]" ++ ['}']) :=
  c4_prose_wrapped_extraction.1 _ _ _ (by decide) (by decide)

/-- Claim C5: round-trip — the interpreter on the raw response text with
one review entry (`lineNumber` the string "42", `reviewComment` "x")
produces exactly that entry, and the comment mapper for a file with path
"a.ts" maps it to exactly one review comment with path "a.ts", line 42 and
body "x". -/
theorem c5_round_trip :
    contentToResult (some (jstr "\x7b\"reviews\":[\x7b\"lineNumber\":\"42\",\"reviewComment\":\"x\"\x7d]\x7d"))
      = some (JVal.arr [JVal.obj [(jstr "lineNumber", JVal.str (jstr "42")),
          (jstr "reviewComment", JVal.str (jstr "x"))]]) ∧
    createComment { «to» := some (jstr "a.ts"), chunks := [] }
        { content := [], changes := [] }
        [JVal.obj [(jstr "lineNumber", JVal.str (jstr "42")),
          (jstr "reviewComment", JVal.str (jstr "x"))]]
      = Except.ok [{ body := JVal.str (jstr "x"), path := jstr "a.ts",
                     line := some 42 }] :=
  ⟨rfl, rfl⟩

/-- The outer file loop is insensitive to files whose destination path is
the deleted-file sentinel: they are skipped before contributing any prompt
or comment. -/
theorem analyzeFiles_filter_deleted (oracle : List Char → ModelOutcome)
    (prDetails : PRDetails) :
    ∀ (files : List FileChange) (acc : List ReviewComment × List (List Char)),
      analyzeFiles oracle prDetails files acc
        = analyzeFiles oracle prDetails
            (files.filter (fun f => !decide (f.«to» = some (jstr "/dev/null")))) acc
  | [], _ => rfl
  | f :: fs, acc => by
    have econs : ∀ (g : FileChange) (gs : List FileChange)
        (acc2 : List ReviewComment × List (List Char)),
        analyzeFiles oracle prDetails (g :: gs) acc2
          = if g.«to» = some (jstr "/dev/null") then
              analyzeFiles oracle prDetails gs acc2
            else
              match analyzeChunks oracle prDetails g g.chunks acc2 with
              | Except.error e => Except.error e
              | Except.ok acc3 => analyzeFiles oracle prDetails gs acc3 :=
      fun _ _ _ => rfl
    by_cases h : f.«to» = some (jstr "/dev/null")
    · have hf : (f :: fs).filter
          (fun f => !decide (f.«to» = some (jstr "/dev/null")))
          = fs.filter (fun f => !decide (f.«to» = some (jstr "/dev/null"))) := by
        simp [List.filter_cons, h]
      rw [hf, econs f fs acc, if_pos h]
      exact analyzeFiles_filter_deleted oracle prDetails fs acc
    · have hf : (f :: fs).filter
          (fun f => !decide (f.«to» = some (jstr "/dev/null")))
          = f :: fs.filter (fun f => !decide (f.«to» = some (jstr "/dev/null"))) := by
        simp [List.filter_cons, h]
      rw [hf, econs f fs acc,
        econs f (fs.filter (fun f => !decide (f.«to» = some (jstr "/dev/null")))) acc,
        if_neg h, if_neg h]
      cases hc : analyzeChunks oracle prDetails f f.chunks acc with
      | error e => rfl
      | ok acc2 => exact analyzeFiles_filter_deleted oracle prDetails fs acc2

/-- Claim C6: a FileChange whose destination path is the deleted-file
sentinel "/dev/null" contributes nothing to the run — removing all such
files from the input changes neither the comments accumulated nor the list
of prompts sent to the Prompt Builder and the model. -/
theorem c6_deleted_files_excluded (oracle : List Char → ModelOutcome)
    (files : List FileChange) (prDetails : PRDetails) :
    analyzeCode oracle files prDetails
      = analyzeCode oracle
          (files.filter (fun f => !decide (f.«to» = some (jstr "/dev/null"))))
          prDetails :=
  analyzeFiles_filter_deleted oracle prDetails files ([], [])

/-- Claim C7: in every run, whatever the collaborators do, the
review-submission call is made at most once, and any payload it is handed
is a non-empty comment list; with zero accumulated comments no submission
occurs. -/
theorem c7_submission_at_most_once_nonempty
    (action : List Char) (diffResult : Option (List Char))
    (parseDiffFn : List Char → List FileChange)
    (matchesAnyPattern : List Char → Bool)
    (oracle : List Char → ModelOutcome) (prDetails : PRDetails) :
    (mainModel action diffResult parseDiffFn matchesAnyPattern oracle
        prDetails).submissions.length ≤ 1 ∧
    ∀ c ∈ (mainModel action diffResult parseDiffFn matchesAnyPattern oracle
        prDetails).submissions, c ≠ [] := by
  unfold mainModel
  split
  · split
    · exact ⟨by simp, by simp⟩
    · split
      · exact ⟨by simp, by simp⟩
      · split
        · exact ⟨by simp, by simp⟩
        · split
          next comments plog hc =>
            refine ⟨by simp, ?_⟩
            intro c hcmem
            rcases List.mem_singleton.mp hcmem with rfl
            exact List.length_pos.mp hc
          next => exact ⟨by simp, by simp⟩
  · exact ⟨by simp, by simp⟩

/-- Claim C8: the Prompt Builder is a pure, deterministic function of the
file, the hunk and the pull-request context — equal inputs give the
identical prompt string, with no hidden state (the Lean embedding of
`createPrompt` reads nothing but its three arguments, mirroring the
source, which references no mutable or global state). -/
theorem c8_prompt_deterministic :
    ∀ (f1 f2 : FileChange) (k1 k2 : Chunk) (d1 d2 : PRDetails),
      f1 = f2 → k1 = k2 → d1 = d2 →
      createPrompt f1 k1 d1 = createPrompt f2 k2 d2 := by
  intro f1 f2 k1 k2 d1 d2 h1 h2 h3
  rw [h1, h2, h3]

/-- Claim C8, witness: the determinism theorem applied at one concrete
(file, hunk, context) triple. -/
theorem c8_witness :
    createPrompt { «to» := some (jstr "a.ts"), chunks := [] }
        { content := jstr "@@ -1 +1 @@",
          changes := [{ ln := some 1, ln2 := none, content := jstr "+x" }] }
        { owner := jstr "o", repo := jstr "r", pull_number := 1,
          title := jstr "t", description := [] }
      = createPrompt { «to» := some (jstr "a.ts"), chunks := [] }
        { content := jstr "@@ -1 +1 @@",
          changes := [{ ln := some 1, ln2 := none, content := jstr "+x" }] }
        { owner := jstr "o", repo := jstr "r", pull_number := 1,
          title := jstr "t", description := [] } :=
  c8_prompt_deterministic _ _ _ _ _ _ rfl rfl rfl

/-- Claim C9: an absent model response content, and any content that trims
to the empty string, make the interpreter return the empty list (a
success), not the failure signal: the content defaults to the two-brace
empty-object string, which parses to an object without a `reviews` field,
and the absent field defaults to the empty array. -/
theorem c9_empty_content_gives_empty_list :
    contentToResult none = some (JVal.arr []) ∧
    ∀ s : List Char, jsTrim s = [] →
      contentToResult (some s) = some (JVal.arr []) := by
  refine ⟨rfl, ?_⟩
  intro s h
  simp only [contentToResult, resOf, h, List.isEmpty_nil, if_true]
  rfl

/-- Claim C9, witness: whitespace-only content evaluates to the empty
list. -/
theorem c9_witness :
    contentToResult (some (jstr "  \n  ")) = some (JVal.arr []) :=
  c9_empty_content_gives_empty_list.2 (jstr "  \n  ") rfl

/-- Claim C10: an input that contains a complete valid JSON object but on
which the interpreter nevertheless fails — further brace-containing text
follows the object, so the extracted candidate spans from the first left
brace to the last right brace of the whole input, is not valid JSON, and
the parse failure yields the failure signal.  The second conjunct shows
the embedded leading object alone is valid JSON for `jsonParse`. -/
theorem c10_trailing_braces_defeat_extraction :
    contentToResult (some (jstr "\x7b\"reviews\":[]\x7d see also \x7b\x7d")) = none ∧
    jsonParse (jstr "\x7b\"reviews\":[]\x7d")
      = some (JVal.obj [(jstr "reviews", JVal.arr [])]) :=
  ⟨rfl, rfl⟩

/-- Claim C7, witness: a run that accumulates one comment makes exactly
one submission, whose payload is that non-empty list. -/
theorem c7_witness :
    ([{ body := JVal.str (jstr "bug"), path := jstr "a.ts", line := some 10 }] :
        List ReviewComment) ≠ [] :=
  (c7_submission_at_most_once_nonempty (jstr "opened") (some (jstr "d"))
      (fun _ => [FileChange.mk (some (jstr "a.ts"))
        [Chunk.mk (jstr "@@ -1 +1 @@")
          [Change.mk (some 10) none (jstr "+x")]]])
      (fun _ => false)
      (fun _ => ModelOutcome.ok (some
        (jstr "\x7b\"reviews\":[\x7b\"lineNumber\":\"10\",\"reviewComment\":\"bug\"\x7d]\x7d")))
      { owner := [], repo := [], pull_number := 1, title := jstr "t",
        description := [] }).2
    _ (List.mem_singleton.mpr rfl)
